import Mathlib

/-!
Shallow embedding of the disaster-response ETL pipeline
(`src/etl_app/etl_pipeline.py`) and proofs about its claims.

Records and table rows are association lists from column names to `Value`s.
The relational store is a list of rows; the SQL upsert executed by
`batch_insert` is modelled as an explicit state transformer.
-/

namespace Etl

/-- A primitive cell value.  `null` stands for Python `None` / pandas `NaN` /
SQL `NULL`; numbers are modelled as integers (the pipeline's amount fields are
only inspected for null-vs-zero by the claims, never for fractional
precision); `date` is an abstract parsed-timestamp payload. -/
inductive Value where
  | null : Value
  | bool : Bool → Value
  | int : Int → Value
  | str : String → Value
  | date : Nat → Value
deriving DecidableEq, Repr

/-- A record / row: an association list from column names to values,
in insertion order — the shallow embedding of a Python `dict`. -/
abbrev Rec := List (String × Value)

/-- The store's table contents: a list of rows. -/
abbrev Store := List Rec

/-- Column names of a record, in order (`dict.keys()`). -/
def recKeys (r : Rec) : List String := r.map Prod.fst

end Etl

namespace Etl

/-! ## Cleaning: `clean_record_for_insertion` (etl_pipeline.py lines 59-76) -/

/-- Per-field maximum string lengths, from `clean_record_for_insertion`. -/
def field_max_lengths : List (String × Nat) :=
  [("incident_type", 100), ("pw_number", 50), ("application_title", 500),
   ("applicant_id", 50), ("damage_category_code", 10), ("damage_category_descrip", 255),
   ("project_status", 50), ("project_process_step", 100), ("project_size", 50),
   ("county", 100), ("county_code", 10), ("state_abbreviation", 10),
   ("state_number_code", 10), ("gm_project_id", 50), ("gm_applicant_id", 50)]

/-- The NA test `pd.isna(value) or value in ['NaT', 'nan', 'None', '']`.
`Value.null` stands for every object `pd.isna` accepts (None/NaN/NaT). -/
def isNaLike (v : Value) : Bool :=
  v == Value.null || v == Value.str "NaT" || v == Value.str "nan" ||
    v == Value.str "None" || v == Value.str ""

/-- One entry of the cleaning loop: NA-like values become null; strings over
their declared maximum length are truncated; everything else passes through. -/
def cleanEntry (p : String × Value) : String × Value :=
  if isNaLike p.2 then (p.1, Value.null)
  else
    match p.2 with
    | Value.str s =>
        match field_max_lengths.lookup p.1 with
        | some m => if m < s.length then (p.1, Value.str (s.take m)) else (p.1, Value.str s)
        | none => (p.1, Value.str s)
    | v => (p.1, v)

/-- The function `clean_record_for_insertion`: value-wise cleanup, keys untouched. -/
def clean_record_for_insertion (r : Rec) : Rec := r.map cleanEntry

/-! ## Normalization inside `fetch_public_assistance_data` (lines 79-141) -/

/-- The camelCase-to-snake_case `column_mapping` dict (lines 96-122). -/
def column_mapping : List (String × String) :=
  [("disasterNumber", "disaster_number"), ("declarationDate", "declaration_date"),
   ("incidentType", "incident_type"), ("pwNumber", "pw_number"),
   ("applicationTitle", "application_title"), ("applicantId", "applicant_id"),
   ("damageCategoryCode", "damage_category_code"),
   ("damageCategoryDescrip", "damage_category_descrip"),
   ("projectStatus", "project_status"), ("projectProcessStep", "project_process_step"),
   ("projectSize", "project_size"), ("county", "county"), ("countyCode", "county_code"),
   ("stateAbbreviation", "state_abbreviation"), ("stateNumberCode", "state_number_code"),
   ("projectAmount", "project_amount"), ("federalShareObligated", "federal_share_obligated"),
   ("totalObligated", "total_obligated"), ("lastObligationDate", "last_obligation_date"),
   ("firstObligationDate", "first_obligation_date"), ("mitigationAmount", "mitigation_amount"),
   ("gmProjectId", "gm_project_id"), ("gmApplicantId", "gm_applicant_id"),
   ("lastRefresh", "last_refresh"), ("hash", "hash_value")]

/-- The rename `df.rename(columns=column_mapping)` on one column name: mapped names are
replaced, unmapped names pass through unchanged. -/
def renameColumn (c : String) : String := (column_mapping.lookup c).getD c

/-- The `date_fields` list (lines 125-128). -/
def date_fields : List String :=
  ["declaration_date", "last_obligation_date", "first_obligation_date", "last_refresh"]

/-- The `numeric_fields` list (lines 131-134). -/
def numeric_fields : List String :=
  ["project_amount", "federal_share_obligated", "total_obligated", "mitigation_amount"]

/-- Value of an unsigned decimal digit string; `none` when empty or any
character is not a digit. -/
def digitsVal (cs : List Char) : Option Nat :=
  if cs = [] then none
  else
    cs.foldl
      (fun acc c =>
        match acc with
        | none => none
        | some n => if c.isDigit then some (10 * n + (c.toNat - 48)) else none)
      (some 0)

/-- Lenient numeric string parse (optionally signed decimal integer);
the model restricts amounts to integers. -/
def strToInt (s : String) : Option Int :=
  match s.data with
  | '-' :: rest => (digitsVal rest).map (fun n => -(n : Int))
  | cs => (digitsVal cs).map (fun n => (n : Int))

/-- The coercion `pd.to_numeric(value, errors='coerce')`: numbers pass through, booleans
become 0/1, parsable strings parse, everything else is NA (`none`). -/
def parseNumeric (v : Value) : Option Int :=
  match v with
  | Value.int n => some n
  | Value.bool b => some (if b then 1 else 0)
  | Value.str s => strToInt s
  | _ => none

/-- The coercion `pd.to_numeric(value, errors='coerce').fillna(0)`: always a number,
zero when missing or unparsable.  Total — never raises. -/
def coerceNumeric (v : Value) : Value := Value.int ((parseNumeric v).getD 0)

/-- ISO `yyyy-mm-dd` prefix parse; stand-in for the lenient
`pd.to_datetime` parser (only presence/absence of a date matters here). -/
def parseIsoDate (s : String) : Option Nat :=
  match s.data with
  | y1 :: y2 :: y3 :: y4 :: '-' :: m1 :: m2 :: '-' :: d1 :: d2 :: _ =>
      if [y1, y2, y3, y4, m1, m2, d1, d2].all Char.isDigit then
        some ((((((((y1.toNat - 48) * 10 + (y2.toNat - 48)) * 10 + (y3.toNat - 48)) * 10 +
          (y4.toNat - 48)) * 100 + (m1.toNat - 48) * 10 + (m2.toNat - 48)) * 100) +
          (d1.toNat - 48) * 10 + (d2.toNat - 48)))
      else none
  | _ => none

/-- The coercion `pd.to_datetime(value, errors='coerce')`: unparsable values become
NaT (null), never raise. -/
def coerceDate (v : Value) : Value :=
  match v with
  | Value.date d => Value.date d
  | Value.int n => Value.date n.toNat
  | Value.str s =>
      match parseIsoDate s with
      | some d => Value.date d
      | none => Value.null
  | _ => Value.null

/-- Column set of `pd.DataFrame(data)`: union of the records' keys in
first-appearance order. -/
def pageColumns (page : List Rec) : List String :=
  page.foldl (fun acc r => acc ++ (recKeys r).filter (fun c => !acc.contains c)) []

/-- A record's cell in a DataFrame column: its value, or NaN (null) when the
record lacks the key. -/
def cellOf (r : Rec) (c : String) : Value := (r.lookup c).getD Value.null

/-- Per-column processing after the rename: the four date columns get the
lenient date coercion, the four amount columns get the numeric coercion
(each guarded by column presence — `if field in df.columns`),
all other columns pass through. -/
def processColumn (c : String) (v : Value) : Value :=
  if date_fields.contains c then coerceDate v
  else if numeric_fields.contains c then coerceNumeric v
  else v

/-- One output record of the normalization: every DataFrame column appears,
renamed, with its processed cell value. -/
def normalizeRecord (cols : List String) (r : Rec) : Rec :=
  cols.map (fun c => (renameColumn c, processColumn (renameColumn c) (cellOf r c)))

/-- The DataFrame pipeline of `fetch_public_assistance_data` on one page of
raw records: empty input stays empty (`if not data`), otherwise rename all
columns and coerce date/amount columns. -/
def normalizePage (page : List Rec) : List Rec :=
  match page with
  | [] => []
  | _ => page.map (normalizeRecord (pageColumns page))

/-- Outcome of the HTTP request for one page: a response with a status code
and JSON body, or a transport-level exception. -/
inductive Transport where
  | success (status : Nat) (body : List (String × List Rec))
  | netError
  | timeout
deriving DecidableEq, Repr

/-- Transport-level failure: a raised network error or timeout, or a
non-success HTTP status (`raise_for_status` raises for 4xx/5xx). -/
def transportFails (t : Transport) : Bool :=
  match t with
  | Transport.success status _ => 400 ≤ status
  | Transport.netError => true
  | Transport.timeout => true

/-- The fetcher `fetch_public_assistance_data`: the whole body is wrapped in
`try/except`, so any raised error (network, timeout, bad status) yields an
empty DataFrame; otherwise the named array is extracted
(`.get("PublicAssistanceFundedProjectsDetails", [])`) and normalized. -/
def fetch_public_assistance_data (t : Transport) : List Rec :=
  match t with
  | Transport.netError => []
  | Transport.timeout => []
  | Transport.success status body =>
      if 400 ≤ status then []
      else normalizePage ((body.lookup "PublicAssistanceFundedProjectsDetails").getD [])

end Etl

namespace Etl

/-! ## The Upsert Loader: `batch_insert` (etl_pipeline.py lines 144-210)

The SQL engine itself is not part of the repository; per the spec it is
"a transactional store keyed by declared unique keys". -/

/-- An operation issued against the store by the loader. -/
inductive StoreOp where
  | introspect (table : String)
  | insert (table : String) (rows : List Rec)
deriving DecidableEq, Repr

/-- The natural-key tuple of a row: the looked-up value of each conflict-key
column (`none` when the column is absent from the row). -/
def keyTuple (ks : List String) (r : Rec) : List (Option Value) :=
  ks.map (fun k => r.lookup k)

/-- Modelled from the spec: the effect of `DO UPDATE SET c = EXCLUDED.c` on
one stored cell — an insert-column that is not a conflict key is overwritten
with the incoming record's value; conflict-key columns and columns outside
the insert column list keep their stored value. -/
def patchEntry (cols ks : List String) (incoming : Rec) (p : String × Value) :
    String × Value :=
  if cols.contains p.1 && !ks.contains p.1 then
    (p.1, (incoming.lookup p.1).getD p.2)
  else p

/-- Modelled from the spec: the `DO UPDATE SET` clause applied to a whole
conflicting row. -/
def patchRow (cols ks : List String) (incoming row : Rec) : Rec :=
  row.map (patchEntry cols ks incoming)

/-- Update a stored row when its natural key matches the incoming record's,
leave it alone otherwise. -/
def updRow (ks cols : List String) (incoming row : Rec) : Rec :=
  if keyTuple ks row == keyTuple ks incoming then patchRow cols ks incoming row
  else row

/-- Does some stored row conflict with the incoming record on the natural
key? -/
def hasKey (ks : List String) (st : Store) (r : Rec) : Bool :=
  st.any (fun row => keyTuple ks row == keyTuple ks r)

/-- Modelled from the spec: one `INSERT ... ON CONFLICT (ks) DO UPDATE`
statement against the store ("insert a row, or if a conflicting natural-key
row exists, update its non-key columns instead"); the store enforces at most
one row per key, so the update touches the matching row. -/
def upsertRow (ks cols : List String) (st : Store) (r : Rec) : Store :=
  if hasKey ks st r then st.map (updRow ks cols r)
  else st ++ [r]

/-- The call `cursor.executemany(sql, cleaned)`: the upsert statement executed once per
record, in batch order. -/
def applyBatch (ks cols : List String) (st : Store) (rows : List Rec) : Store :=
  rows.foldl (upsertRow ks cols) st

/-- The row a record contributes to the insert statement: one value per
insert column (`%(c)s` named placeholders).  The call sites pass records that
all share one key set, so every lookup is defined there. -/
def mkInsertRow (cols : List String) (r : Rec) : Rec :=
  cols.map (fun c => (c, (r.lookup c).getD Value.null))

/-- One `if name in existing_columns and name not in filtered_record` step of
`batch_insert`: add the timestamp column as null when the table has it and
the filtered record does not. -/
def addDefaultCol (existing : List String) (name : String) (f : Rec) : Rec :=
  if existing.contains name && (f.lookup name).isNone then f ++ [(name, Value.null)]
  else f

/-- The per-record filtering step of `batch_insert`: keep only keys present in
the introspected column set (the `hash_value` re-assignment is a no-op on a
dict and is omitted), then add `created_at` / `updated_at` as null when the
table has them and the record does not. -/
def filterRecord (existing : List String) (r : Rec) : Rec :=
  addDefaultCol existing "updated_at"
    (addDefaultCol existing "created_at" (r.filter (fun p => existing.contains p.1)))

/-- The loader `batch_insert(cursor, table, records, unique_keys)` against a store whose
introspected column set is `existing`.  Returns the reported row count, the
store after the call, and the trace of store operations issued. -/
def batch_insert (existing : List String) (table : String) (records : List Rec)
    (unique_keys : List String) (st : Store) : Nat × Store × List StoreOp :=
  if records = [] then (0, st, [])
  else
    let filtered := records.map (filterRecord existing)
    if filtered = [] then (0, st, [StoreOp.introspect table])
    else
      let cleaned := filtered.map clean_record_for_insertion
      let valid_unique_keys := unique_keys.filter (fun k => existing.contains k)
      if valid_unique_keys = [] then (0, st, [StoreOp.introspect table])
      else
        match cleaned with
        | [] => (0, st, [StoreOp.introspect table])
        | c0 :: _ =>
          let columns := recKeys c0
          if columns = [] then (0, st, [StoreOp.introspect table])
          else
            let rows := cleaned.map (mkInsertRow columns)
            (cleaned.length, applyBatch valid_unique_keys columns st rows,
              [StoreOp.introspect table, StoreOp.insert table rows])

/-! ## The page loop: `process_public_assistance_in_batches` (lines 213-242) -/

/-- The `while True` fetch-and-load loop, with explicit fuel (the Python loop
need not terminate for an arbitrary fetcher).  Returns the accumulated row
count, the final store, and the offsets fetched, or `none` when fuel runs
out before the loop ends. -/
def processLoop (fetchPage : Nat → Nat → List Rec) (existing : List String)
    (pageSize : Nat) : Nat → Store → Nat → Option (Nat × Store × List Nat)
  | 0, _, _ => none
  | Nat.succ fuel, st, offset =>
    let df := fetchPage pageSize offset
    if df = [] then some (0, st, [offset])
    else
      let r := batch_insert existing "public_assistance_projects" df
        ["disaster_number", "pw_number"] st
      if df.length < pageSize then some (r.1, r.2.1, [offset])
      else
        match processLoop fetchPage existing pageSize fuel r.2.1 (offset + pageSize) with
        | none => none
        | some (rest, stFin, offs) => some (r.1 + rest, stFin, offset :: offs)

/-- The driver `process_public_assistance_in_batches`: the loop from offset 0 with
page size 100. -/
def process_public_assistance_in_batches (fetchPage : Nat → Nat → List Rec)
    (existing : List String) (fuel : Nat) (st : Store) : Option (Nat × Store × List Nat) :=
  processLoop fetchPage existing 100 fuel st 0

/-! ## The Run Ledger: `update_etl_control` (lines 313-326) -/

/-- One row of the `etl_control` table.  `records_processed` is `none` when
the column was never written (SQL NULL / column default). -/
structure LedgerRow where
  process_name : String
  last_run_timestamp : Nat
  status : String
  records_processed : Option Nat
deriving DecidableEq, Repr

/-- The ledger write `update_etl_control`: one
`INSERT INTO etl_control (process_name, last_run_timestamp, status) VALUES
('public_assistance_etl', NOW(), 'COMPLETED') ON CONFLICT (process_name) DO
UPDATE SET last_run_timestamp = NOW(), status = 'COMPLETED',
records_processed = (SELECT COUNT(*) FROM public_assistance_projects)`.
Note the insert column list does not include `records_processed`; only the
conflict-update branch writes it.  `now` models `NOW()`, `paProjects` the
`public_assistance_projects` base table the subquery counts.
This helper is the `DO UPDATE SET` branch applied to one ledger row. -/
def ledgerUpd (now cnt : Nat) (e : LedgerRow) : LedgerRow :=
  if e.process_name == "public_assistance_etl" then
    { e with last_run_timestamp := now, status := "COMPLETED",
             records_processed := some cnt }
  else e

/-- The whole `update_etl_control` upsert against the ledger table. -/
def update_etl_control (now : Nat) (paProjects : Store) (ledger : List LedgerRow) :
    List LedgerRow :=
  if ledger.any (fun e => e.process_name == "public_assistance_etl") then
    ledger.map (ledgerUpd now paProjects.length)
  else
    ledger ++ [{ process_name := "public_assistance_etl", last_run_timestamp := now,
                 status := "COMPLETED", records_processed := none }]

end Etl

namespace Etl

/-! ## The Identity/Hash Assigner: `generate_hash` (etl_pipeline.py lines 54-56)

The function is `hashlib.md5(json.dumps(record, sort_keys=True,
default=str).encode()).hexdigest()`.  The JSON serialization (default
separators, `ensure_ascii`, sorted keys) and the MD5 algorithm (RFC 1321)
are embedded below over `Nat` byte lists. -/

/-- Hex digit character, lowercase. -/
def hexDigitChar (n : Nat) : Char := Char.ofNat (if n < 10 then 48 + n else 87 + n)

/-- Four-hex-digit rendering for a `\u` escape. -/
def uHex4 (n : Nat) : String :=
  String.mk [hexDigitChar (n / 4096 % 16), hexDigitChar (n / 256 % 16),
    hexDigitChar (n / 16 % 16), hexDigitChar (n % 16)]

/-- JSON string escaping as `json.dumps` performs it with the default
`ensure_ascii=True`: quotes, backslashes and control characters escaped,
non-ASCII characters as `\u` escapes (surrogate pairs above the BMP), so the
output is pure ASCII. -/
def escChar (c : Char) : String :=
  if c = '"' then "\\\""
  else if c = '\\' then "\\\\"
  else if c = '\x08' then "\\b"
  else if c = '\t' then "\\t"
  else if c = '\n' then "\\n"
  else if c = '\x0c' then "\\f"
  else if c = '\r' then "\\r"
  else if c.toNat < 32 then "\\u" ++ uHex4 c.toNat
  else if c.toNat < 127 then String.mk [c]
  else if c.toNat < 65536 then "\\u" ++ uHex4 c.toNat
  else
    "\\u" ++ uHex4 (55296 + (c.toNat - 65536) / 1024) ++
      "\\u" ++ uHex4 (56320 + (c.toNat - 65536) % 1024)

/-- A JSON string literal. -/
def jsonString (s : String) : String :=
  "\"" ++ String.join (s.data.map escChar) ++ "\""

/-- JSON rendering of one value (`default=str` turns timestamps into their
string form, here an abstract decimal rendering). -/
def serializeValue (v : Value) : String :=
  match v with
  | Value.null => "null"
  | Value.bool true => "true"
  | Value.bool false => "false"
  | Value.int n => toString n
  | Value.str s => jsonString s
  | Value.date d => jsonString (toString d)

/-- Key order used by `sort_keys=True`: compare entries by key. -/
def keyLe (p q : String × Value) : Prop := p.1 ≤ q.1

instance : DecidableRel keyLe := fun p q => inferInstanceAs (Decidable (p.1 ≤ q.1))

instance : IsTotal (String × Value) keyLe := ⟨fun a b => le_total a.1 b.1⟩

instance : IsTrans (String × Value) keyLe := ⟨fun _ _ _ h h' => le_trans h h'⟩

/-- Canonical key order (`sort_keys=True`): entries sorted by key. -/
def sortKeys (r : Rec) : Rec :=
  List.insertionSort keyLe r

/-- Record serialization as `json.dumps(record, sort_keys=True, default=str)`
produces it: sorted keys, default separators. -/
def serializeRecord (r : Rec) : String :=
  "\x7b" ++
    String.intercalate ", "
      ((sortKeys r).map (fun p => jsonString p.1 ++ ": " ++ serializeValue p.2)) ++
    "\x7d"

/-- The serialized record's bytes (`.encode()`); the serializer output is
pure ASCII, so UTF-8 bytes coincide with code points. -/
def strBytes (s : String) : List Nat := s.data.map Char.toNat

/-- MD5 sine-table constants of RFC 1321. -/
def md5K : List Nat :=
  [0xd76aa478, 0xe8c7b756, 0x242070db, 0xc1bdceee,
   0xf57c0faf, 0x4787c62a, 0xa8304613, 0xfd469501,
   0x698098d8, 0x8b44f7af, 0xffff5bb1, 0x895cd7be,
   0x6b901122, 0xfd987193, 0xa679438e, 0x49b40821,
   0xf61e2562, 0xc040b340, 0x265e5a51, 0xe9b6c7aa,
   0xd62f105d, 0x02441453, 0xd8a1e681, 0xe7d3fbc8,
   0x21e1cde6, 0xc33707d6, 0xf4d50d87, 0x455a14ed,
   0xa9e3e905, 0xfcefa3f8, 0x676f02d9, 0x8d2a4c8a,
   0xfffa3942, 0x8771f681, 0x6d9d6122, 0xfde5380c,
   0xa4beea44, 0x4bdecfa9, 0xf6bb4b60, 0xbebfbc70,
   0x289b7ec6, 0xeaa127fa, 0xd4ef3085, 0x04881d05,
   0xd9d4d039, 0xe6db99e5, 0x1fa27cf8, 0xc4ac5665,
   0xf4292244, 0x432aff97, 0xab9423a7, 0xfc93a039,
   0x655b59c3, 0x8f0ccc92, 0xffeff47d, 0x85845dd1,
   0x6fa87e4f, 0xfe2ce6e0, 0xa3014314, 0x4e0811a1,
   0xf7537e82, 0xbd3af235, 0x2ad7d2bb, 0xeb86d391]

/-- MD5 per-round left-rotation amounts. -/
def md5S : List Nat :=
  [7, 12, 17, 22, 7, 12, 17, 22, 7, 12, 17, 22, 7, 12, 17, 22,
   5, 9, 14, 20, 5, 9, 14, 20, 5, 9, 14, 20, 5, 9, 14, 20,
   4, 11, 16, 23, 4, 11, 16, 23, 4, 11, 16, 23, 4, 11, 16, 23,
   6, 10, 15, 21, 6, 10, 15, 21, 6, 10, 15, 21, 6, 10, 15, 21]

/-- Addition on 32-bit words (as `Nat` mod 2^32). -/
def add32 (a b : Nat) : Nat := (a + b) % 4294967296

/-- Bitwise complement on 32-bit words. -/
def not32 (a : Nat) : Nat := 4294967295 - a % 4294967296

/-- Left rotation of a 32-bit word. -/
def rotl32 (x n : Nat) : Nat :=
  ((x <<< n) % 4294967296) ||| ((x % 4294967296) >>> (32 - n))

/-- The round-dependent MD5 mixing function F/G/H/I. -/
def md5Mix (i b c d : Nat) : Nat :=
  if i < 16 then (b &&& c) ||| (not32 b &&& d)
  else if i < 32 then (d &&& b) ||| (not32 d &&& c)
  else if i < 48 then b ^^^ c ^^^ d
  else c ^^^ (b ||| not32 d)

/-- The message-word index schedule g(i). -/
def md5MsgIndex (i : Nat) : Nat :=
  if i < 16 then i
  else if i < 32 then (5 * i + 1) % 16
  else if i < 48 then (3 * i + 5) % 16
  else (7 * i) % 16

/-- A 32-bit little-endian word from four bytes. -/
def leWord (b0 b1 b2 b3 : Nat) : Nat := b0 + 256 * (b1 + 256 * (b2 + 256 * b3))

/-- The sixteen message words of one 64-byte chunk. -/
def chunkWords (chunk : List Nat) : List Nat :=
  (List.range 16).map (fun i =>
    leWord (chunk.getD (4 * i) 0) (chunk.getD (4 * i + 1) 0)
      (chunk.getD (4 * i + 2) 0) (chunk.getD (4 * i + 3) 0))

/-- One MD5 round on the running state (a, b, c, d). -/
def md5Round (M : List Nat) (st : Nat × Nat × Nat × Nat) (i : Nat) :
    Nat × Nat × Nat × Nat :=
  let x := add32 (add32 st.1 (md5Mix i st.2.1 st.2.2.1 st.2.2.2))
    (add32 (md5K.getD i 0) (M.getD (md5MsgIndex i) 0))
  (st.2.2.2, add32 st.2.1 (rotl32 x (md5S.getD i 0)), st.2.1, st.2.2.1)

/-- Process one 64-byte chunk: 64 rounds, then add into the state. -/
def md5Chunk (st : Nat × Nat × Nat × Nat) (chunk : List Nat) :
    Nat × Nat × Nat × Nat :=
  let M := chunkWords chunk
  let r := (List.range 64).foldl (md5Round M) st
  (add32 st.1 r.1, add32 st.2.1 r.2.1, add32 st.2.2.1 r.2.2.1, add32 st.2.2.2 r.2.2.2)

/-- MD5 padding: a 0x80 byte, zeros to 56 mod 64, then the bit length as
eight little-endian bytes. -/
def md5Pad (msg : List Nat) : List Nat :=
  msg ++ 128 :: List.replicate ((120 - (msg.length + 1) % 64) % 64) 0 ++
    (List.range 8).map (fun i => ((8 * msg.length) >>> (8 * i)) % 256)

/-- Split a byte list into 64-byte chunks. -/
def chunksOf64 (l : List Nat) : List (List Nat) :=
  match l with
  | [] => []
  | b :: t => ((b :: t).take 64) :: chunksOf64 ((b :: t).drop 64)
termination_by l.length
decreasing_by simp; omega

/-- The MD5 initial state. -/
def md5Init : Nat × Nat × Nat × Nat := (0x67452301, 0xefcdab89, 0x98badcfe, 0x10325476)

/-- Little-endian bytes of a 32-bit word. -/
def wordLEBytes (w : Nat) : List Nat :=
  [w % 256, (w >>> 8) % 256, (w >>> 16) % 256, (w >>> 24) % 256]

/-- The sixteen MD5 digest bytes of a message. -/
def md5Bytes (msg : List Nat) : List Nat :=
  let st := (chunksOf64 (md5Pad msg)).foldl md5Chunk md5Init
  wordLEBytes st.1 ++ wordLEBytes st.2.1 ++ wordLEBytes st.2.2.1 ++ wordLEBytes st.2.2.2

/-- Two lowercase hex characters of one byte. -/
def byteHex (b : Nat) : String := String.mk [hexDigitChar (b / 16 % 16), hexDigitChar (b % 16)]

/-- The `hexdigest()` string of a message's MD5. -/
def md5Hex (msg : List Nat) : String := String.join ((md5Bytes msg).map byteHex)

/-- The fingerprint `generate_hash(record)`. -/
def generate_hash (record : Rec) : String := md5Hex (strBytes (serializeRecord record))

end Etl

namespace Etl

/-! ## Auxiliary definitions used by the statements and proofs -/

/-- Replay of a batch against a single row: the row as it stands after every
upsert of the batch whose key matches it has patched it, in batch order. -/
def gFold (ks cols : List String) (B : List Rec) (row : Rec) : Rec :=
  B.foldl (fun p r => updRow ks cols r p) row

/-- A record supplies a value for every listed column. -/
def fullOn (cols : List String) (r : Rec) : Prop :=
  ∀ c ∈ cols, (r.lookup c).isSome = true

/-- No two rows of the store share a natural-key tuple — the uniqueness the
store's conflict-key index enforces. -/
def distinctKeys (ks : List String) (st : Store) : Prop :=
  st.Pairwise (fun a b => keyTuple ks a ≠ keyTuple ks b)

/-- Strict-or-equal key order on record entries, used to pin down the sorted
form of a record with distinct keys. -/
def keyLtEq (p q : String × Value) : Prop := p.1 < q.1 ∨ p = q

instance : IsAntisymm (String × Value) keyLtEq :=
  ⟨fun a b h h' => by
    rcases h with h | h
    · rcases h' with h' | h'
      · exact absurd h (lt_asymm h')
      · exact h'.symm
    · exact h⟩

end Etl

namespace Etl

/-! ## Helper lemmas on association-list lookup -/

theorem lookup_cons_eq (a : String) (b : Value) (t : Rec) :
    ((a, b) :: t).lookup a = some b := by
  simp [List.lookup_cons]

theorem lookup_cons_ne (a k : String) (b : Value) (t : Rec) (h : k ≠ a) :
    ((a, b) :: t).lookup k = t.lookup k := by
  have hb : (k == a) = false := beq_eq_false_iff_ne.mpr h
  simp [List.lookup_cons, hb]

theorem lookup_cons_fst_eq (q : String × Value) (t : Rec) :
    (q :: t).lookup q.1 = some q.2 := by
  obtain ⟨a, b⟩ := q
  exact lookup_cons_eq a b t

theorem lookup_cons_fst_ne (q : String × Value) (k : String) (t : Rec) (h : k ≠ q.1) :
    (q :: t).lookup k = t.lookup k := by
  obtain ⟨a, b⟩ := q
  exact lookup_cons_ne a k b t h

theorem lookup_map_entry (g : String × Value → String × Value)
    (hg : ∀ p, (g p).1 = p.1) (r : Rec) (k : String) :
    (r.map g).lookup k = (r.lookup k).map (fun v => (g (k, v)).2) := by
  induction r with
  | nil => rfl
  | cons p t ih =>
    by_cases hk : k = p.1
    · rw [hk]
      rw [List.map_cons]
      have h1 : (g p :: t.map g).lookup p.1 = some (g p).2 := by
        have := lookup_cons_fst_eq (g p) (t.map g)
        rw [hg p] at this
        exact this
      rw [h1, lookup_cons_fst_eq p t]
      rfl
    · rw [List.map_cons,
        lookup_cons_fst_ne (g p) k (t.map g) (by rw [hg p]; exact hk),
        lookup_cons_fst_ne p k t hk, ih]

theorem lookup_none_iff (r : Rec) (k : String) :
    r.lookup k = none ↔ k ∉ recKeys r := by
  induction r with
  | nil => simp [recKeys]
  | cons p t ih =>
    obtain ⟨a, b⟩ := p
    by_cases hk : k = a
    · subst hk
      simp [lookup_cons_eq, recKeys]
    · rw [lookup_cons_ne _ _ _ _ hk, ih]
      simp [recKeys, hk]

theorem lookup_mkInsertRow (cols : List String) (r : Rec) (c : String) (hc : c ∈ cols) :
    (mkInsertRow cols r).lookup c = some ((r.lookup c).getD Value.null) := by
  induction cols with
  | nil => cases hc
  | cons a t ih =>
    by_cases hk : c = a
    · subst hk
      exact lookup_cons_eq _ _ _
    · rw [mkInsertRow, List.map_cons, lookup_cons_ne _ _ _ _ hk]
      exact ih (by
        rcases List.mem_cons.mp hc with h | h
        · exact absurd h hk
        · exact h)

theorem cleanEntry_fst (p : String × Value) : (cleanEntry p).1 = p.1 := by
  unfold cleanEntry
  split
  · rfl
  · split <;> (try rfl) <;> split <;> (try rfl) <;> split <;> rfl

theorem recKeys_map_entry (g : String × Value → String × Value)
    (hg : ∀ p, (g p).1 = p.1) (r : Rec) :
    recKeys (r.map g) = recKeys r := by
  unfold recKeys
  rw [List.map_map]
  exact List.map_congr_left fun p _ => hg p

theorem recKeys_clean (r : Rec) :
    recKeys (clean_record_for_insertion r) = recKeys r :=
  recKeys_map_entry cleanEntry cleanEntry_fst r

theorem lookup_clean (r : Rec) (k : String) :
    (clean_record_for_insertion r).lookup k = (r.lookup k).map (fun v => (cleanEntry (k, v)).2) :=
  lookup_map_entry cleanEntry cleanEntry_fst r k

/-! ## C10 — empty-batch no-op -/

/-- C10: for the empty record list, `batch_insert` returns 0 and executes no
store operation at all — no schema introspection and no insert — leaving the
store unchanged. -/
theorem C10_empty_batch_noop (existing : List String) (table : String)
    (unique_keys : List String) (st : Store) :
    batch_insert existing table [] unique_keys st = (0, st, []) := by
  simp [batch_insert]

/-! ## C3 — rejection when the schema lacks natural-key columns -/

/-- C3 counterexample: the claim says a target column set lacking at least
one requested natural-key column makes the loader return zero rows and skip
the insert.  Here the schema has `disaster_number` but lacks `pw_number`,
yet the batch is loaded: the call returns 1 and issues the insert. -/
theorem C3_counterexample :
    batch_insert ["disaster_number", "project_amount"] "public_assistance_projects"
      [[("disaster_number", Value.int 5), ("project_amount", Value.int 3)]]
      ["disaster_number", "pw_number"] [] =
    (1, [[("disaster_number", Value.int 5), ("project_amount", Value.int 3)]],
      [StoreOp.introspect "public_assistance_projects",
       StoreOp.insert "public_assistance_projects"
         [[("disaster_number", Value.int 5), ("project_amount", Value.int 3)]]]) := by
  decide

/-- C3 amended: the loader rejects the batch (returns zero rows loaded after
only the introspection query, leaving the store unchanged) exactly when the
introspected column set lacks all of the requested natural-key columns; if at
least one key column survives, the batch proceeds on the surviving keys. -/
theorem C3_all_keys_missing_rejects (existing : List String) (table : String)
    (records : List Rec) (unique_keys : List String) (st : Store)
    (hmiss : ∀ k ∈ unique_keys, existing.contains k = false)
    (hne : records ≠ []) :
    batch_insert existing table records unique_keys st =
      (0, st, [StoreOp.introspect table]) := by
  have hfil : records.map (filterRecord existing) ≠ [] := by
    intro h
    exact hne (List.map_eq_nil_iff.mp h)
  have hval : unique_keys.filter (fun k => existing.contains k) = [] :=
    List.filter_eq_nil_iff.mpr (by
      intro k hk h
      rw [hmiss k hk] at h
      exact absurd h (by decide))
  simp only [batch_insert]
  rw [if_neg hne, if_neg hfil, if_pos hval]

/-- C3 witness: a concrete schema lacking both key columns rejects a
nonempty batch with only the introspection query issued. -/
theorem C3_all_keys_missing_rejects_witness :
    (∀ k ∈ ["disaster_number", "pw_number"],
      (["project_amount", "county"] : List String).contains k = false) ∧
    ([[("project_amount", Value.int 3)]] : List Rec) ≠ [] ∧
    batch_insert ["project_amount", "county"] "public_assistance_projects"
      [[("project_amount", Value.int 3)]] ["disaster_number", "pw_number"] [] =
      (0, [], [StoreOp.introspect "public_assistance_projects"]) :=
  ⟨by decide, by decide,
    C3_all_keys_missing_rejects ["project_amount", "county"] "public_assistance_projects"
      [[("project_amount", Value.int 3)]] ["disaster_number", "pw_number"] []
      (by decide) (by decide)⟩

end Etl

namespace Etl

/-! ## C2 — conflict-key columns under cleaning -/

/-- C2 counterexample: the claim says no record reaches the store with a null
conflict-key column and that cleaning never nulls a conflict key.  Here a
record whose `pw_number` is the sentinel empty string is cleaned to null and
inserted with a null conflict-key column. -/
theorem C2_counterexample :
    batch_insert ["disaster_number", "pw_number"] "public_assistance_projects"
      [[("disaster_number", Value.int 4530), ("pw_number", Value.str "")]]
      ["disaster_number", "pw_number"] [] =
    (1, [[("disaster_number", Value.int 4530), ("pw_number", Value.null)]],
      [StoreOp.introspect "public_assistance_projects",
       StoreOp.insert "public_assistance_projects"
         [[("disaster_number", Value.int 4530), ("pw_number", Value.null)]]]) := by
  decide

/-- C2 amended: cleaning preserves the presence and non-nullity of a
conflict-key value that is not NA-like (not None/NaN and not one of the
sentinel strings); an NA-like conflict-key value, however, is replaced by
null and passed to the store without any guard. -/
theorem C2_clean_preserves_nonnull_keys (r : Rec) (k : String) (v : Value)
    (hk : k = "disaster_number" ∨ k = "pw_number")
    (hv : r.lookup k = some v) (hna : isNaLike v = false) :
    ∃ v', (clean_record_for_insertion r).lookup k = some v' ∧ v' ≠ Value.null := by
  rw [lookup_clean, hv]
  refine ⟨(cleanEntry (k, v)).2, rfl, ?_⟩
  unfold cleanEntry
  rw [if_neg (by simp [hna])]
  cases v with
  | null => simp [isNaLike] at hna
  | str s =>
      cases h : field_max_lengths.lookup k with
      | none => simp [h]
      | some m => by_cases hm : m < s.length <;> simp [h, hm]
  | bool b => simp
  | int n => simp
  | date d => simp

/-- C2 witness: a record with non-sentinel key values keeps both conflict
keys non-null through cleaning. -/
theorem C2_clean_preserves_nonnull_keys_witness :
    ("pw_number" = "disaster_number" ∨ "pw_number" = "pw_number") ∧
    ([("disaster_number", Value.int 1), ("pw_number", Value.str "PW-01")] : Rec).lookup
      "pw_number" = some (Value.str "PW-01") ∧
    isNaLike (Value.str "PW-01") = false ∧
    ∃ v', (clean_record_for_insertion
        [("disaster_number", Value.int 1), ("pw_number", Value.str "PW-01")]).lookup
        "pw_number" = some v' ∧ v' ≠ Value.null :=
  ⟨Or.inr rfl, by decide, by decide,
    C2_clean_preserves_nonnull_keys
      [("disaster_number", Value.int 1), ("pw_number", Value.str "PW-01")]
      "pw_number" (Value.str "PW-01") (Or.inr rfl) (by decide) (by decide)⟩

/-! ## C4 — the normalizer's output column set -/

/-- C4 counterexample: the claim says the normalizer outputs exactly the
canonical column set.  On a record with an unmapped key and without most
expected fields, the output keeps the unmapped `someNewField` column and
contains no `project_amount` column — nothing is synthesized. -/
theorem C4_counterexample :
    normalizePage [[("disasterNumber", Value.str "10"), ("someNewField", Value.str "x")]] =
      [[("disaster_number", Value.str "10"), ("someNewField", Value.str "x")]] ∧
    "someNewField" ∉ column_mapping.map Prod.snd ∧
    "project_amount" ∈ column_mapping.map Prod.snd ∧
    "project_amount" ∉
      recKeys [("disaster_number", Value.str "10"), ("someNewField", Value.str "x")] := by
  decide

/-- C4 amended: every record of a normalized page carries the same column
set — the page's union of raw keys with mapped names renamed — so unmapped
input columns pass through and expected columns absent from the page stay
absent; the canonical set is not enforced by the normalizer. -/
theorem C4_output_columns (page : List Rec) (out : Rec)
    (hout : out ∈ normalizePage page) :
    recKeys out = (pageColumns page).map renameColumn := by
  cases page with
  | nil => cases hout
  | cons p t =>
    simp only [normalizePage] at hout
    obtain ⟨r, _, rfl⟩ := List.mem_map.mp hout
    unfold normalizeRecord recKeys
    rw [List.map_map]
    exact List.map_congr_left fun c _ => rfl

/-- C4 witness: a concrete page whose normalized record's columns are the
renamed page columns. -/
theorem C4_output_columns_witness :
    ([("disaster_number", Value.str "77"), ("extraCol", Value.int 1)] : Rec) ∈
      normalizePage [[("disasterNumber", Value.str "77"), ("extraCol", Value.int 1)]] ∧
    recKeys [("disaster_number", Value.str "77"), ("extraCol", Value.int 1)] =
      (pageColumns [[("disasterNumber", Value.str "77"), ("extraCol", Value.int 1)]]).map
        renameColumn :=
  ⟨by decide,
    C4_output_columns [[("disasterNumber", Value.str "77"), ("extraCol", Value.int 1)]]
      [("disaster_number", Value.str "77"), ("extraCol", Value.int 1)] (by decide)⟩

/-! ## C6 — numeric coercion of amount fields -/

/-- C6 counterexample: the claim says a missing amount field normalizes to
exactly zero.  A page in which no record supplies `projectAmount` produces
records with no `project_amount` column at all — the field is absent, not
zero. -/
theorem C6_counterexample :
    (normalizePage [[("disasterNumber", Value.str "11")]]).map
      (fun r => r.lookup "project_amount") = [none] ∧
    (none : Option Value) ≠ some (Value.int 0) := by
  decide

/-- C6 amended: when an amount column is present in the fetched page, every
record's normalized value for it is a number — zero whenever the cell is
missing (NA) or unparsable — never null; the coercion is total.  An amount
column absent from the whole page is left absent. -/
theorem C6_numeric_coercion (page : List Rec) (r : Rec) (c : String)
    (hr : r ∈ page) (hc : c ∈ pageColumns page)
    (hnum : renameColumn c ∈ numeric_fields) :
    ∃ n : Int,
      (renameColumn c, Value.int n) ∈ normalizeRecord (pageColumns page) r ∧
      (parseNumeric (cellOf r c) = none → n = 0) := by
  have hpc : processColumn (renameColumn c) (cellOf r c) =
      Value.int ((parseNumeric (cellOf r c)).getD 0) := by
    simp only [numeric_fields, List.mem_cons, List.not_mem_nil, or_false] at hnum
    rcases hnum with h | h | h | h <;> rw [h] <;> rfl
  refine ⟨(parseNumeric (cellOf r c)).getD 0, ?_, ?_⟩
  · exact List.mem_map.mpr ⟨c, hc, by rw [hpc]⟩
  · intro h
    rw [h]
    rfl

/-- C6 witness: an unparsable `projectAmount` string normalizes to the
number zero. -/
theorem C6_numeric_coercion_witness :
    ([("pwNumber", Value.str "P1"), ("projectAmount", Value.str "bad")] : Rec) ∈
      [[("pwNumber", Value.str "P1"), ("projectAmount", Value.str "bad")]] ∧
    "projectAmount" ∈ pageColumns [[("pwNumber", Value.str "P1"), ("projectAmount", Value.str "bad")]] ∧
    renameColumn "projectAmount" ∈ numeric_fields ∧
    ∃ n : Int,
      (renameColumn "projectAmount", Value.int n) ∈
        normalizeRecord
          (pageColumns [[("pwNumber", Value.str "P1"), ("projectAmount", Value.str "bad")]])
          [("pwNumber", Value.str "P1"), ("projectAmount", Value.str "bad")] ∧
      (parseNumeric (cellOf [("pwNumber", Value.str "P1"), ("projectAmount", Value.str "bad")]
        "projectAmount") = none → n = 0) :=
  ⟨by decide, by decide, by decide,
    C6_numeric_coercion [[("pwNumber", Value.str "P1"), ("projectAmount", Value.str "bad")]]
      [("pwNumber", Value.str "P1"), ("projectAmount", Value.str "bad")]
      "projectAmount" (by decide) (by decide) (by decide)⟩

end Etl


namespace Etl

/-! ## C8 — the run-ledger success write -/

theorem filter_name_length_one (b : String) :
    ∀ (l : List LedgerRow), (l.map LedgerRow.process_name).Nodup →
      (∃ x ∈ l, x.process_name = b) →
      (l.filter (fun e => e.process_name == b)).length = 1 := by
  intro l
  induction l with
  | nil => rintro _ ⟨x, hx, _⟩; cases hx
  | cons a t ih =>
    intro hnd hex
    rw [List.map_cons, List.nodup_cons] at hnd
    by_cases hb : a.process_name = b
    · rw [List.filter_cons_of_pos (by simp [hb])]
      have htail : t.filter (fun e => e.process_name == b) = [] := by
        apply List.filter_eq_nil_iff.mpr
        intro x hx hxb
        have hxb' : x.process_name = b := by simpa using hxb
        exact hnd.1 (by
          rw [← hb] at hxb'
          exact List.mem_map.mpr ⟨x, hx, hxb'⟩)
      rw [htail]
      rfl
    · rw [List.filter_cons_of_neg (by simp [hb])]
      apply ih hnd.2
      obtain ⟨x, hx, hxb⟩ := hex
      rcases List.mem_cons.mp hx with rfl | hxt
      · exact absurd hxb hb
      · exact ⟨x, hxt, hxb⟩

/-- C8 counterexample: the claim says every successful run writes a
`records_processed` snapshot re-derived from the base table.  On a ledger
with no prior row the insert branch runs, and its column list omits
`records_processed`: the stored row holds no snapshot although the base
table counts one row. -/
theorem C8_counterexample :
    update_etl_control 7 [[("disaster_number", Value.int 1)]] [] =
      [{ process_name := "public_assistance_etl", last_run_timestamp := 7,
         status := "COMPLETED", records_processed := none }] ∧
    (none : Option Nat) ≠ some 1 := by
  exact ⟨rfl, by decide⟩

/-- C8 amended: `update_etl_control` is a single upsert keyed by the fixed
process name, so at most one ledger row exists per name and only the most
recent outcome is retained; it writes timestamp = now and status = COMPLETED,
and it writes the re-derived base-table count only when a prior row existed
(the conflict-update branch) — the fresh-insert branch leaves
`records_processed` unwritten. -/
theorem C8_ledger_upsert (now : Nat) (paProjects : Store) (ledger : List LedgerRow)
    (hnd : (ledger.map LedgerRow.process_name).Nodup) :
    ((update_etl_control now paProjects ledger).map LedgerRow.process_name).Nodup ∧
    ((update_etl_control now paProjects ledger).filter
      (fun e => e.process_name == "public_assistance_etl")).length = 1 ∧
    ∀ e ∈ update_etl_control now paProjects ledger,
      e.process_name = "public_assistance_etl" →
        e.last_run_timestamp = now ∧ e.status = "COMPLETED" ∧
        e.records_processed =
          (if ledger.any (fun x => x.process_name == "public_assistance_etl") then
            some paProjects.length else none) := by
  by_cases h : ledger.any (fun x => x.process_name == "public_assistance_etl") = true
  · have hupd : update_etl_control now paProjects ledger =
        ledger.map (ledgerUpd now paProjects.length) := by
      unfold update_etl_control
      rw [if_pos h]
    have hname : ∀ e : LedgerRow,
        (ledgerUpd now paProjects.length e).process_name = e.process_name := by
      intro e
      unfold ledgerUpd
      split <;> rfl
    refine ⟨?_, ?_, ?_⟩
    · rw [hupd, List.map_map]
      have hX : List.map (LedgerRow.process_name ∘ ledgerUpd now paProjects.length) ledger =
          List.map LedgerRow.process_name ledger :=
        List.map_congr_left fun e _ => hname e
      rw [hX]
      exact hnd
    · rw [hupd, List.filter_map, List.length_map]
      have hY : ledger.filter
          ((fun e : LedgerRow => e.process_name == "public_assistance_etl") ∘
            ledgerUpd now paProjects.length) =
          ledger.filter (fun e : LedgerRow => e.process_name == "public_assistance_etl") :=
        List.filter_congr fun e _ => by
          show ((ledgerUpd now paProjects.length e).process_name == "public_assistance_etl") =
            (e.process_name == "public_assistance_etl")
          rw [hname e]
      rw [hY]
      obtain ⟨x, hx, hxb⟩ := List.any_eq_true.mp h
      exact filter_name_length_one _ ledger hnd ⟨x, hx, by simpa using hxb⟩
    · intro e he hnm
      rw [hupd] at he
      obtain ⟨e₀, he₀, rfl⟩ := List.mem_map.mp he
      by_cases hb : (e₀.process_name == "public_assistance_etl") = true
      · unfold ledgerUpd at hnm ⊢
        rw [if_pos hb] at hnm ⊢
        exact ⟨rfl, rfl, by rw [if_pos h]⟩
      · unfold ledgerUpd at hnm
        rw [if_neg hb] at hnm
        exact absurd (by simp [hnm]) hb
  · have hupd : update_etl_control now paProjects ledger =
        ledger ++ [{ process_name := "public_assistance_etl", last_run_timestamp := now,
                     status := "COMPLETED", records_processed := none }] := by
      unfold update_etl_control
      rw [if_neg h]
    refine ⟨?_, ?_, ?_⟩
    · rw [hupd, List.map_append, List.nodup_append]
      refine ⟨hnd, by simp, ?_⟩
      intro a ha hmem
      simp only [List.map_cons, List.map_nil, List.mem_singleton] at hmem
      obtain ⟨x, hx, hxa⟩ := List.mem_map.mp ha
      exact h (List.any_eq_true.mpr ⟨x, hx, by simp [hxa, hmem]⟩)
    · rw [hupd, List.filter_append]
      have h1 : ledger.filter (fun e => e.process_name == "public_assistance_etl") = [] :=
        List.filter_eq_nil_iff.mpr (fun x hx hxb => h (List.any_eq_true.mpr ⟨x, hx, hxb⟩))
      rw [h1]
      rfl
    · intro e he hnm
      rw [hupd] at he
      rcases List.mem_append.mp he with hl | hr
      · exact absurd (List.any_eq_true.mpr ⟨e, hl, by simp [hnm]⟩) h
      · have he' := List.mem_singleton.mp hr
        subst he'
        exact ⟨rfl, rfl, by rw [if_neg h]⟩

/-- C8 witness: on a ledger holding a prior FAILED row for the process, the
upsert leaves one row carrying the new timestamp, COMPLETED, and the
re-derived count. -/
theorem C8_ledger_upsert_witness :
    (([{ process_name := "public_assistance_etl", last_run_timestamp := 3,
         status := "FAILED", records_processed := none }] : List LedgerRow).map
      LedgerRow.process_name).Nodup ∧
    ((update_etl_control 9 [[("disaster_number", Value.int 2)]]
        [{ process_name := "public_assistance_etl", last_run_timestamp := 3,
           status := "FAILED", records_processed := none }]).map
      LedgerRow.process_name).Nodup ∧
    ((update_etl_control 9 [[("disaster_number", Value.int 2)]]
        [{ process_name := "public_assistance_etl", last_run_timestamp := 3,
           status := "FAILED", records_processed := none }]).filter
      (fun e => e.process_name == "public_assistance_etl")).length = 1 ∧
    ∀ e ∈ update_etl_control 9 [[("disaster_number", Value.int 2)]]
        [{ process_name := "public_assistance_etl", last_run_timestamp := 3,
           status := "FAILED", records_processed := none }],
      e.process_name = "public_assistance_etl" →
        e.last_run_timestamp = 9 ∧ e.status = "COMPLETED" ∧
        e.records_processed =
          (if ([{ process_name := "public_assistance_etl", last_run_timestamp := 3,
                  status := "FAILED", records_processed := none }] : List LedgerRow).any
              (fun x => x.process_name == "public_assistance_etl") then
            some ([[("disaster_number", Value.int 2)]] : Store).length else none) := by
  refine ⟨by decide, ?_⟩
  have h := C8_ledger_upsert 9 [[("disaster_number", Value.int 2)]]
    [{ process_name := "public_assistance_etl", last_run_timestamp := 3,
       status := "FAILED", records_processed := none }] (by decide)
  exact h

end Etl

namespace Etl

/-! ## C5 — pagination termination -/

/-- C5: in the page loop, an empty page ends the loop at once; a page shorter
than the requested page size ends the loop after that page is loaded; and a
full first page followed by a shorter nonempty second page stops the loop
after the second page with the returned total equal to the sum of the rows
loaded from both pages. -/
theorem C5_pagination_termination (fetchPage : Nat → Nat → List Rec)
    (existing : List String) (pageSize : Nat) (st : Store) (fuel offset : Nat) :
    (fetchPage pageSize offset = [] → 1 ≤ fuel →
      processLoop fetchPage existing pageSize fuel st offset = some (0, st, [offset])) ∧
    (fetchPage pageSize offset ≠ [] → (fetchPage pageSize offset).length < pageSize →
      1 ≤ fuel →
      processLoop fetchPage existing pageSize fuel st offset =
        some ((batch_insert existing "public_assistance_projects" (fetchPage pageSize offset)
            ["disaster_number", "pw_number"] st).1,
          (batch_insert existing "public_assistance_projects" (fetchPage pageSize offset)
            ["disaster_number", "pw_number"] st).2.1,
          [offset])) ∧
    ((fetchPage pageSize 0).length = pageSize → 0 < pageSize →
      fetchPage pageSize pageSize ≠ [] → (fetchPage pageSize pageSize).length < pageSize →
      2 ≤ fuel →
      processLoop fetchPage existing pageSize fuel st 0 =
        some ((batch_insert existing "public_assistance_projects" (fetchPage pageSize 0)
            ["disaster_number", "pw_number"] st).1 +
          (batch_insert existing "public_assistance_projects" (fetchPage pageSize pageSize)
            ["disaster_number", "pw_number"]
            (batch_insert existing "public_assistance_projects" (fetchPage pageSize 0)
              ["disaster_number", "pw_number"] st).2.1).1,
          (batch_insert existing "public_assistance_projects" (fetchPage pageSize pageSize)
            ["disaster_number", "pw_number"]
            (batch_insert existing "public_assistance_projects" (fetchPage pageSize 0)
              ["disaster_number", "pw_number"] st).2.1).2.1,
          [0, pageSize])) := by
  refine ⟨?_, ?_, ?_⟩
  · intro h hf
    obtain ⟨f, rfl⟩ : ∃ f, fuel = f + 1 := ⟨fuel - 1, by omega⟩
    simp [processLoop, h]
  · intro hne hlt hf
    obtain ⟨f, rfl⟩ : ∃ f, fuel = f + 1 := ⟨fuel - 1, by omega⟩
    simp [processLoop, hne, hlt]
  · intro h1 hps h2ne h2lt hf
    obtain ⟨f, rfl⟩ : ∃ f, fuel = f + 2 := ⟨fuel - 2, by omega⟩
    have hne1 : fetchPage pageSize 0 ≠ [] := by
      intro hh
      rw [hh] at h1
      simp at h1
      omega
    simp [processLoop, hne1, h1, h2ne, h2lt, Nat.lt_irrefl]

/-- C5 witness: two concrete pages — a full page of two records at offset 0,
one record at offset 2 — stop the loop after the second page with the
offsets 0 and 2 fetched and the totals summed. -/
theorem C5_pagination_termination_witness :
    (((fun n off => if off = 0 then
        [[("disaster_number", Value.int 1), ("pw_number", Value.str "A")],
         [("disaster_number", Value.int 2), ("pw_number", Value.str "B")]]
      else if off = 2 then [[("disaster_number", Value.int 3), ("pw_number", Value.str "C")]]
      else ([] : List Rec)) : Nat → Nat → List Rec) 2 0).length = 2 ∧
    processLoop
      (fun n off => if off = 0 then
        [[("disaster_number", Value.int 1), ("pw_number", Value.str "A")],
         [("disaster_number", Value.int 2), ("pw_number", Value.str "B")]]
      else if off = 2 then [[("disaster_number", Value.int 3), ("pw_number", Value.str "C")]]
      else ([] : List Rec))
      ["disaster_number", "pw_number"] 2 2 [] 0 =
      some ((batch_insert ["disaster_number", "pw_number"] "public_assistance_projects"
          [[("disaster_number", Value.int 1), ("pw_number", Value.str "A")],
           [("disaster_number", Value.int 2), ("pw_number", Value.str "B")]]
          ["disaster_number", "pw_number"] []).1 +
        (batch_insert ["disaster_number", "pw_number"] "public_assistance_projects"
          [[("disaster_number", Value.int 3), ("pw_number", Value.str "C")]]
          ["disaster_number", "pw_number"]
          (batch_insert ["disaster_number", "pw_number"] "public_assistance_projects"
            [[("disaster_number", Value.int 1), ("pw_number", Value.str "A")],
             [("disaster_number", Value.int 2), ("pw_number", Value.str "B")]]
            ["disaster_number", "pw_number"] []).2.1).1,
        (batch_insert ["disaster_number", "pw_number"] "public_assistance_projects"
          [[("disaster_number", Value.int 3), ("pw_number", Value.str "C")]]
          ["disaster_number", "pw_number"]
          (batch_insert ["disaster_number", "pw_number"] "public_assistance_projects"
            [[("disaster_number", Value.int 1), ("pw_number", Value.str "A")],
             [("disaster_number", Value.int 2), ("pw_number", Value.str "B")]]
            ["disaster_number", "pw_number"] []).2.1).2.1,
        [0, 2]) := by
  refine ⟨by decide, ?_⟩
  exact (C5_pagination_termination
    (fun n off => if off = 0 then
        [[("disaster_number", Value.int 1), ("pw_number", Value.str "A")],
         [("disaster_number", Value.int 2), ("pw_number", Value.str "B")]]
      else if off = 2 then [[("disaster_number", Value.int 3), ("pw_number", Value.str "C")]]
      else ([] : List Rec))
    ["disaster_number", "pw_number"] 2 [] 2 0).2.2
    (by decide) (by decide) (by decide) (by decide) (by decide)

end Etl

namespace Etl

/-! ## C7 — transport failures are swallowed, not retried -/

/-- C7: any transport-level failure (network error, timeout, HTTP status of
400 or above) makes `fetch_public_assistance_data` return an empty page
instead of raising; a failure on the first page makes the load loop
terminate normally with zero rows; a failure on the second page after a full
first page truncates the load after the first page's rows — and the trace of
fetched offsets shows each offset, the failed one included, fetched exactly
once (no retry). -/
theorem C7_transport_failure_swallowed (oracle : Nat → Nat → Transport)
    (existing : List String) (st : Store) (pageSize fuel : Nat) :
    (∀ t : Transport, transportFails t = true → fetch_public_assistance_data t = []) ∧
    (transportFails (oracle pageSize 0) = true → 1 ≤ fuel →
      processLoop (fun a b => fetch_public_assistance_data (oracle a b)) existing pageSize
        fuel st 0 = some (0, st, [0])) ∧
    ((fetch_public_assistance_data (oracle pageSize 0)).length = pageSize → 0 < pageSize →
      transportFails (oracle pageSize pageSize) = true → 2 ≤ fuel →
      processLoop (fun a b => fetch_public_assistance_data (oracle a b)) existing pageSize
        fuel st 0 =
        some ((batch_insert existing "public_assistance_projects"
            (fetch_public_assistance_data (oracle pageSize 0))
            ["disaster_number", "pw_number"] st).1,
          (batch_insert existing "public_assistance_projects"
            (fetch_public_assistance_data (oracle pageSize 0))
            ["disaster_number", "pw_number"] st).2.1,
          [0, pageSize])) := by
  have parta : ∀ t : Transport, transportFails t = true →
      fetch_public_assistance_data t = [] := by
    intro t ht
    cases t with
    | netError => rfl
    | timeout => rfl
    | success s body =>
        have hs : 400 ≤ s := by simpa [transportFails] using ht
        simp [fetch_public_assistance_data, hs]
  refine ⟨parta, ?_, ?_⟩
  · intro hfail hf
    obtain ⟨f, rfl⟩ : ∃ f, fuel = f + 1 := ⟨fuel - 1, by omega⟩
    have hempty : fetch_public_assistance_data (oracle pageSize 0) = [] :=
      parta _ hfail
    simp [processLoop, hempty]
  · intro h1 hps hfail2 hf
    obtain ⟨f, rfl⟩ : ∃ f, fuel = f + 2 := ⟨fuel - 2, by omega⟩
    have hne1 : fetch_public_assistance_data (oracle pageSize 0) ≠ [] := by
      intro hh
      rw [hh] at h1
      simp at h1
      omega
    have hempty2 : fetch_public_assistance_data (oracle pageSize pageSize) = [] :=
      parta _ hfail2
    simp [processLoop, hne1, h1, hempty2, Nat.lt_irrefl]

/-- C7 witness: a concrete oracle whose first page succeeds with one record
at page size one and whose later requests fail at the network level; the
loop ends after the failed second fetch, which was issued once. -/
theorem C7_transport_failure_swallowed_witness :
    ((fetch_public_assistance_data
      (((fun n off => if off = 0 then
          Transport.success 200
            [("PublicAssistanceFundedProjectsDetails", [[("pwNumber", Value.str "X")]])]
        else Transport.netError) : Nat → Nat → Transport) 1 0)).length = 1) ∧
    transportFails
      (((fun n off => if off = 0 then
          Transport.success 200
            [("PublicAssistanceFundedProjectsDetails", [[("pwNumber", Value.str "X")]])]
        else Transport.netError) : Nat → Nat → Transport) 1 1) = true ∧
    processLoop
      (fun a b => fetch_public_assistance_data
        (((fun n off => if off = 0 then
            Transport.success 200
              [("PublicAssistanceFundedProjectsDetails", [[("pwNumber", Value.str "X")]])]
          else Transport.netError) : Nat → Nat → Transport) a b))
      ["pw_number", "disaster_number"] 1 2 [] 0 =
      some ((batch_insert ["pw_number", "disaster_number"] "public_assistance_projects"
          (fetch_public_assistance_data
            (((fun n off => if off = 0 then
                Transport.success 200
                  [("PublicAssistanceFundedProjectsDetails", [[("pwNumber", Value.str "X")]])]
              else Transport.netError) : Nat → Nat → Transport) 1 0))
          ["disaster_number", "pw_number"] []).1,
        (batch_insert ["pw_number", "disaster_number"] "public_assistance_projects"
          (fetch_public_assistance_data
            (((fun n off => if off = 0 then
                Transport.success 200
                  [("PublicAssistanceFundedProjectsDetails", [[("pwNumber", Value.str "X")]])]
              else Transport.netError) : Nat → Nat → Transport) 1 0))
          ["disaster_number", "pw_number"] []).2.1,
        [0, 1]) := by
  refine ⟨by decide, by decide, ?_⟩
  exact (C7_transport_failure_swallowed
    (fun n off => if off = 0 then
        Transport.success 200
          [("PublicAssistanceFundedProjectsDetails", [[("pwNumber", Value.str "X")]])]
      else Transport.netError)
    ["pw_number", "disaster_number"] [] 1 2).2.2
    (by decide) (by decide) (by decide) (by decide)

end Etl

namespace Etl

/-! ## Store algebra for C1 -/

theorem contains_of_mem (l : List String) (a : String) (h : a ∈ l) :
    l.contains a = true :=
  List.elem_eq_true_of_mem h

theorem mem_of_contains (l : List String) (a : String) (h : l.contains a = true) :
    a ∈ l :=
  List.mem_of_elem_eq_true h

theorem patchEntry_fst_eq (cols ks : List String) (inc : Rec) (p : String × Value) :
    (patchEntry cols ks inc p).1 = p.1 := by
  unfold patchEntry
  split <;> rfl

theorem upsertRow_pos (ks cols : List String) (st : Store) (r : Rec)
    (h : hasKey ks st r = true) :
    upsertRow ks cols st r = st.map (updRow ks cols r) := by
  unfold upsertRow
  rw [if_pos h]

theorem upsertRow_neg (ks cols : List String) (st : Store) (r : Rec)
    (h : ¬ hasKey ks st r = true) :
    upsertRow ks cols st r = st ++ [r] := by
  unfold upsertRow
  rw [if_neg h]

theorem updRow_pos (ks cols : List String) (inc row : Rec)
    (h : (keyTuple ks row == keyTuple ks inc) = true) :
    updRow ks cols inc row = patchRow cols ks inc row := by
  unfold updRow
  rw [if_pos h]

theorem updRow_neg (ks cols : List String) (inc row : Rec)
    (h : ¬ (keyTuple ks row == keyTuple ks inc) = true) :
    updRow ks cols inc row = row := by
  unfold updRow
  rw [if_neg h]

theorem applyBatch_nil (ks cols : List String) (st : Store) :
    applyBatch ks cols st [] = st := rfl

theorem applyBatch_cons (ks cols : List String) (st : Store) (r : Rec) (B : List Rec) :
    applyBatch ks cols st (r :: B) = applyBatch ks cols (upsertRow ks cols st r) B := rfl

theorem applyBatch_append (ks cols : List String) (st : Store) (B₁ B₂ : List Rec) :
    applyBatch ks cols st (B₁ ++ B₂) = applyBatch ks cols (applyBatch ks cols st B₁) B₂ :=
  List.foldl_append _ _ B₁ B₂

theorem gFold_nil (ks cols : List String) (row : Rec) : gFold ks cols [] row = row := rfl

theorem gFold_cons (ks cols : List String) (r : Rec) (B : List Rec) (row : Rec) :
    gFold ks cols (r :: B) row = gFold ks cols B (updRow ks cols r row) := rfl

theorem gFold_concat (ks cols : List String) (B : List Rec) (r : Rec) (row : Rec) :
    gFold ks cols (B ++ [r]) row = updRow ks cols r (gFold ks cols B row) :=
  List.foldl_append _ _ B [r]

theorem lookup_patchRow_key (cols ks : List String) (inc row : Rec) (k : String)
    (hk : k ∈ ks) :
    (patchRow cols ks inc row).lookup k = row.lookup k := by
  unfold patchRow
  rw [lookup_map_entry (patchEntry cols ks inc) (patchEntry_fst_eq cols ks inc) row k]
  cases hv : row.lookup k with
  | none => rfl
  | some v =>
      have hcond : (cols.contains k && !ks.contains k) = false := by
        rw [contains_of_mem ks k hk]
        simp
      simp [patchEntry, hcond, hk]

theorem keyTuple_patchRow (cols ks : List String) (inc row : Rec) :
    keyTuple ks (patchRow cols ks inc row) = keyTuple ks row := by
  unfold keyTuple
  exact List.map_congr_left fun k hk => lookup_patchRow_key cols ks inc row k hk

theorem keyTuple_updRow (ks cols : List String) (inc row : Rec) :
    keyTuple ks (updRow ks cols inc row) = keyTuple ks row := by
  unfold updRow
  split
  · exact keyTuple_patchRow cols ks inc row
  · rfl

theorem keyTuple_gFold (ks cols : List String) :
    ∀ (B : List Rec) (row : Rec), keyTuple ks (gFold ks cols B row) = keyTuple ks row := by
  intro B
  induction B with
  | nil => intro row; rfl
  | cons r B' ih =>
      intro row
      rw [gFold_cons, ih, keyTuple_updRow]

theorem fullOn_mkInsertRow (cols : List String) (r : Rec) :
    fullOn cols (mkInsertRow cols r) := by
  intro c hc
  rw [lookup_mkInsertRow cols r c hc]
  rfl

theorem recKeys_mkInsertRow (cols : List String) (r : Rec) :
    recKeys (mkInsertRow cols r) = cols := by
  unfold recKeys mkInsertRow
  rw [List.map_map]
  exact List.map_id' cols

theorem patchEntry_patchEntry (cols ks : List String) (inc inc' : Rec)
    (h : fullOn cols inc) (p : String × Value) :
    patchEntry cols ks inc (patchEntry cols ks inc' p) = patchEntry cols ks inc p := by
  by_cases hcond : (cols.contains p.1 && !ks.contains p.1) = true
  · have hc1 : cols.contains p.1 = true := by
      revert hcond
      cases cols.contains p.1 <;> simp
    have hmem : p.1 ∈ cols := mem_of_contains cols p.1 hc1
    obtain ⟨v, hv⟩ := Option.isSome_iff_exists.mp (h p.1 hmem)
    have h1 : patchEntry cols ks inc' p = (p.1, (inc'.lookup p.1).getD p.2) := by
      unfold patchEntry
      rw [if_pos hcond]
    have h2 : patchEntry cols ks inc p = (p.1, (inc.lookup p.1).getD p.2) := by
      unfold patchEntry
      rw [if_pos hcond]
    have h3 : patchEntry cols ks inc (p.1, (inc'.lookup p.1).getD p.2) =
        (p.1, (inc.lookup p.1).getD ((inc'.lookup p.1).getD p.2)) := by
      unfold patchEntry
      rw [if_pos hcond]
    rw [h1, h3, h2, hv]
    rfl
  · have h1 : patchEntry cols ks inc' p = p := by
      unfold patchEntry
      rw [if_neg hcond]
    rw [h1]

theorem patchRow_patchRow (cols ks : List String) (inc inc' row : Rec)
    (h : fullOn cols inc) :
    patchRow cols ks inc (patchRow cols ks inc' row) = patchRow cols ks inc row := by
  unfold patchRow
  rw [List.map_map]
  exact List.map_congr_left fun p _ => patchEntry_patchEntry cols ks inc inc' h p

theorem patchRow_updRow (cols ks : List String) (inc r' row : Rec)
    (h : fullOn cols inc) :
    patchRow cols ks inc (updRow ks cols r' row) = patchRow cols ks inc row := by
  unfold updRow
  split
  · exact patchRow_patchRow cols ks inc r' row h
  · rfl

theorem patchRow_gFold (cols ks : List String) (inc : Rec) (h : fullOn cols inc) :
    ∀ (B : List Rec) (w : Rec),
      patchRow cols ks inc (gFold ks cols B w) = patchRow cols ks inc w := by
  intro B
  induction B with
  | nil => intro w; rfl
  | cons r B' ih =>
      intro w
      rw [gFold_cons, ih, patchRow_updRow cols ks inc r w h]

theorem assoc_self_lookup (row : Rec) (hnd : (recKeys row).Nodup) :
    ∀ p ∈ row, row.lookup p.1 = some p.2 := by
  induction row with
  | nil => intro p hp; cases hp
  | cons q t ih =>
      intro p hp
      rw [recKeys, List.map_cons, List.nodup_cons] at hnd
      rcases List.mem_cons.mp hp with rfl | hpt
      · exact lookup_cons_fst_eq p t
      · have hne : p.1 ≠ q.1 := by
          intro hEq
          exact hnd.1 (hEq ▸ List.mem_map.mpr ⟨p, hpt, rfl⟩)
        rw [lookup_cons_fst_ne q p.1 t hne]
        exact ih hnd.2 p hpt

theorem patchRow_self (cols ks : List String) (row : Rec)
    (hnd : (recKeys row).Nodup) :
    patchRow cols ks row row = row := by
  unfold patchRow
  have hid : ∀ p ∈ row, patchEntry cols ks row p = p := by
    intro p hp
    unfold patchEntry
    split
    · rw [assoc_self_lookup row hnd p hp]
      rfl
    · rfl
  rw [List.map_congr_left hid, List.map_id']

theorem hasKey_map_updRow (ks cols : List String) (inc : Rec) (st : Store) (r : Rec) :
    hasKey ks (st.map (updRow ks cols inc)) r = hasKey ks st r := by
  unfold hasKey
  induction st with
  | nil => rfl
  | cons a t ih =>
      rw [List.map_cons, List.any_cons, List.any_cons, ih, keyTuple_updRow]

theorem hasKey_upsertRow_mono (ks cols : List String) (st : Store) (r r' : Rec)
    (h : hasKey ks st r' = true) :
    hasKey ks (upsertRow ks cols st r) r' = true := by
  by_cases hk : hasKey ks st r = true
  · rw [upsertRow_pos ks cols st r hk, hasKey_map_updRow]
    exact h
  · rw [upsertRow_neg ks cols st r hk]
    unfold hasKey at h ⊢
    rw [List.any_append, h]
    rfl

theorem hasKey_upsertRow_self (ks cols : List String) (st : Store) (r : Rec) :
    hasKey ks (upsertRow ks cols st r) r = true := by
  by_cases hk : hasKey ks st r = true
  · rw [upsertRow_pos ks cols st r hk, hasKey_map_updRow]
    exact hk
  · rw [upsertRow_neg ks cols st r hk]
    unfold hasKey
    rw [List.any_append]
    have : ([r] : Store).any (fun row => keyTuple ks row == keyTuple ks r) = true := by
      simp [List.any_cons]
    rw [this, Bool.or_true]

theorem hasKey_applyBatch_mono (ks cols : List String) :
    ∀ (B : List Rec) (st : Store) (r' : Rec), hasKey ks st r' = true →
      hasKey ks (applyBatch ks cols st B) r' = true := by
  intro B
  induction B with
  | nil => intro st r' h; exact h
  | cons b B' ih =>
      intro st r' h
      rw [applyBatch_cons]
      exact ih _ r' (hasKey_upsertRow_mono ks cols st b r' h)

theorem hasKey_applyBatch_mem (ks cols : List String) :
    ∀ (B : List Rec) (st : Store) (r : Rec), r ∈ B →
      hasKey ks (applyBatch ks cols st B) r = true := by
  intro B
  induction B with
  | nil => intro st r h; cases h
  | cons b B' ih =>
      intro st r h
      rcases List.mem_cons.mp h with rfl | hB'
      · rw [applyBatch_cons]
        exact hasKey_applyBatch_mono ks cols B' _ r (hasKey_upsertRow_self ks cols st r)
      · rw [applyBatch_cons]
        exact ih _ r hB'

theorem applyBatch_all_match (ks cols : List String) :
    ∀ (B : List Rec) (st : Store), (∀ r ∈ B, hasKey ks st r = true) →
      applyBatch ks cols st B = st.map (gFold ks cols B) := by
  intro B
  induction B with
  | nil =>
      intro st _
      rw [applyBatch_nil]
      have : ∀ row ∈ st, gFold ks cols [] row = id row := fun row _ => rfl
      rw [List.map_congr_left this, List.map_id]
  | cons r B' ih =>
      intro st h
      rw [applyBatch_cons, upsertRow_pos ks cols st r (h r (List.mem_cons_self r B'))]
      rw [ih (st.map (updRow ks cols r)) (fun r' hr' => by
        rw [hasKey_map_updRow]
        exact h r' (List.mem_cons_of_mem _ hr'))]
      rw [List.map_map]
      exact List.map_congr_left fun row _ => rfl

theorem gFold_fixpoint (ks cols : List String) (hcols : cols.Nodup) :
    ∀ (B : List Rec), (∀ r ∈ B, ∃ rec, r = mkInsertRow cols rec) →
      ∀ (st : Store) (row : Rec), row ∈ applyBatch ks cols st B →
        gFold ks cols B row = row := by
  intro B
  induction B using List.reverseRecOn with
  | nil => intro _ st row _; rfl
  | append_singleton B₀ r ih =>
      intro hB st row hrow
      have hB₀ : ∀ x ∈ B₀, ∃ rec, x = mkInsertRow cols rec :=
        fun x hx => hB x (List.mem_append.mpr (Or.inl hx))
      obtain ⟨rec, rfl⟩ :=
        hB r (List.mem_append.mpr (Or.inr (List.mem_singleton.mpr rfl)))
      have hfull : fullOn cols (mkInsertRow cols rec) := fullOn_mkInsertRow cols rec
      rw [applyBatch_append, applyBatch_cons, applyBatch_nil] at hrow
      rw [gFold_concat]
      by_cases hk : hasKey ks (applyBatch ks cols st B₀) (mkInsertRow cols rec) = true
      · rw [upsertRow_pos _ _ _ _ hk] at hrow
        obtain ⟨p0, hp0, rfl⟩ := List.mem_map.mp hrow
        have ihp : gFold ks cols B₀ p0 = p0 := ih hB₀ st p0 hp0
        by_cases hkey : (keyTuple ks p0 == keyTuple ks (mkInsertRow cols rec)) = true
        · rw [updRow_pos _ _ _ _ hkey]
          have hkey2 : (keyTuple ks
              (gFold ks cols B₀ (patchRow cols ks (mkInsertRow cols rec) p0)) ==
              keyTuple ks (mkInsertRow cols rec)) = true := by
            rw [keyTuple_gFold, keyTuple_patchRow]
            exact hkey
          rw [updRow_pos _ _ _ _ hkey2]
          rw [patchRow_gFold cols ks _ hfull]
          exact patchRow_patchRow cols ks (mkInsertRow cols rec) (mkInsertRow cols rec)
            p0 hfull
        · rw [updRow_neg _ _ _ _ hkey, ihp, updRow_neg _ _ _ _ hkey]
      · rw [upsertRow_neg _ _ _ _ hk] at hrow
        rcases List.mem_append.mp hrow with hmem | hmem
        · have ihp : gFold ks cols B₀ row = row := ih hB₀ st row hmem
          have hkey : ¬ (keyTuple ks row == keyTuple ks (mkInsertRow cols rec)) = true := by
            intro hEq
            apply hk
            unfold hasKey
            exact List.any_eq_true.mpr ⟨row, hmem, hEq⟩
          rw [ihp, updRow_neg _ _ _ _ hkey]
        · have hrowEq := List.mem_singleton.mp hmem
          subst hrowEq
          have hkey : (keyTuple ks (gFold ks cols B₀ (mkInsertRow cols rec)) ==
              keyTuple ks (mkInsertRow cols rec)) = true := by
            rw [keyTuple_gFold]
            exact beq_self_eq_true _
          rw [updRow_pos _ _ _ _ hkey, patchRow_gFold cols ks _ hfull]
          exact patchRow_self cols ks (mkInsertRow cols rec) (by
            rw [recKeys_mkInsertRow]
            exact hcols)

theorem applyBatch_idem (ks cols : List String) (st : Store) (B : List Rec)
    (hcols : cols.Nodup) (hB : ∀ r ∈ B, ∃ rec, r = mkInsertRow cols rec) :
    applyBatch ks cols (applyBatch ks cols st B) B = applyBatch ks cols st B := by
  rw [applyBatch_all_match ks cols B (applyBatch ks cols st B)
    (fun r hr => hasKey_applyBatch_mem ks cols B st r hr)]
  have hfix : ∀ row ∈ applyBatch ks cols st B,
      gFold ks cols B row = id row :=
    fun row hrow => gFold_fixpoint ks cols hcols B hB st row hrow
  rw [List.map_congr_left hfix, List.map_id]

theorem distinctKeys_upsertRow (ks cols : List String) (st : Store) (r : Rec)
    (h : distinctKeys ks st) : distinctKeys ks (upsertRow ks cols st r) := by
  by_cases hk : hasKey ks st r = true
  · rw [upsertRow_pos _ _ _ _ hk]
    unfold distinctKeys at h ⊢
    rw [List.pairwise_map]
    exact h.imp (by
      intro a b hab
      rw [keyTuple_updRow, keyTuple_updRow]
      exact hab)
  · rw [upsertRow_neg _ _ _ _ hk]
    unfold distinctKeys at h ⊢
    rw [List.pairwise_append]
    refine ⟨h, List.pairwise_singleton _ _, ?_⟩
    intro a ha b hb
    have hb' := List.mem_singleton.mp hb
    subst hb'
    intro hEq
    apply hk
    unfold hasKey
    exact List.any_eq_true.mpr ⟨a, ha, by rw [hEq]; exact beq_self_eq_true _⟩

theorem distinctKeys_applyBatch (ks cols : List String) :
    ∀ (B : List Rec) (st : Store), distinctKeys ks st →
      distinctKeys ks (applyBatch ks cols st B) := by
  intro B
  induction B with
  | nil => intro st h; exact h
  | cons b B' ih =>
      intro st h
      rw [applyBatch_cons]
      exact ih _ (distinctKeys_upsertRow ks cols st b h)


end Etl

namespace Etl

/-! ## C1 — idempotence of the upsert load -/

theorem recKeys_filter_pred (existing : List String) (r : Rec) :
    recKeys (r.filter (fun p => existing.contains p.1)) =
      (recKeys r).filter (fun a => existing.contains a) := by
  unfold recKeys
  rw [List.filter_map]
  rfl

theorem recKeys_append_single (f : Rec) (name : String) (v : Value) :
    recKeys (f ++ [(name, v)]) = recKeys f ++ [name] := by
  unfold recKeys
  rw [List.map_append]
  rfl

theorem nodup_append_key (f : Rec) (name : String) (v : Value)
    (hnd : (recKeys f).Nodup) (habs : f.lookup name = none) :
    (recKeys (f ++ [(name, v)])).Nodup := by
  rw [recKeys_append_single, List.nodup_append]
  refine ⟨hnd, List.nodup_singleton _, ?_⟩
  intro a ha hb
  have hab : a = name := List.mem_singleton.mp hb
  subst hab
  exact (lookup_none_iff f a).mp habs ha

theorem addDefaultCol_nodup (existing : List String) (name : String) (f : Rec)
    (h : (recKeys f).Nodup) : (recKeys (addDefaultCol existing name f)).Nodup := by
  unfold addDefaultCol
  split
  case isTrue hcond =>
    apply nodup_append_key f name Value.null h
    have hnone : ((f.lookup name).isNone) = true := by
      revert hcond
      cases existing.contains name <;> cases hl : (f.lookup name).isNone <;> simp
    exact Option.isNone_iff_eq_none.mp hnone
  case isFalse => exact h

theorem recKeys_filterRecord_nodup (existing : List String) (r : Rec)
    (h : (recKeys r).Nodup) : (recKeys (filterRecord existing r)).Nodup := by
  unfold filterRecord
  apply addDefaultCol_nodup
  apply addDefaultCol_nodup
  rw [recKeys_filter_pred]
  exact h.filter _

theorem batch_insert_no_valid_keys (existing : List String) (table : String)
    (r0 : Rec) (rest : List Rec) (unique_keys : List String) (st : Store)
    (hv : unique_keys.filter (fun k => existing.contains k) = []) :
    batch_insert existing table (r0 :: rest) unique_keys st =
      (0, st, [StoreOp.introspect table]) := by
  simp only [batch_insert]
  rw [if_neg (List.cons_ne_nil r0 rest)]
  rw [if_neg (show ¬ List.map (filterRecord existing) (r0 :: rest) = [] by simp)]
  rw [if_pos hv]

theorem batch_insert_empty_cols (existing : List String) (table : String)
    (r0 : Rec) (rest : List Rec) (unique_keys : List String) (st : Store)
    (hv : ¬ unique_keys.filter (fun k => existing.contains k) = [])
    (hcn : recKeys (clean_record_for_insertion (filterRecord existing r0)) = []) :
    batch_insert existing table (r0 :: rest) unique_keys st =
      (0, st, [StoreOp.introspect table]) := by
  simp only [batch_insert]
  rw [if_neg (List.cons_ne_nil r0 rest)]
  rw [if_neg (show ¬ List.map (filterRecord existing) (r0 :: rest) = [] by simp)]
  rw [if_neg hv]
  simp only [List.map_cons]
  rw [if_pos hcn]

theorem batch_insert_main (existing : List String) (table : String)
    (r0 : Rec) (rest : List Rec) (unique_keys : List String) (st : Store)
    (hv : ¬ unique_keys.filter (fun k => existing.contains k) = [])
    (hcn : ¬ recKeys (clean_record_for_insertion (filterRecord existing r0)) = []) :
    batch_insert existing table (r0 :: rest) unique_keys st =
      ((((r0 :: rest).map (filterRecord existing)).map clean_record_for_insertion).length,
        applyBatch (unique_keys.filter (fun k => existing.contains k))
          (recKeys (clean_record_for_insertion (filterRecord existing r0))) st
          ((((r0 :: rest).map (filterRecord existing)).map clean_record_for_insertion).map
            (mkInsertRow (recKeys (clean_record_for_insertion (filterRecord existing r0))))),
        [StoreOp.introspect table,
          StoreOp.insert table
            ((((r0 :: rest).map (filterRecord existing)).map clean_record_for_insertion).map
              (mkInsertRow
                (recKeys (clean_record_for_insertion (filterRecord existing r0)))))]) := by
  simp only [batch_insert]
  rw [if_neg (List.cons_ne_nil r0 rest)]
  rw [if_neg (show ¬ List.map (filterRecord existing) (r0 :: rest) = [] by simp)]
  rw [if_neg hv]
  simp only [List.map_cons]
  rw [if_neg hcn]

/-- C1: calling `batch_insert` twice with the same batch, target table and
natural-key column list (batches of uniform, duplicate-free key sets, as
`DataFrame.to_dict` produces them) returns the same result and leaves the
store in the same final state as calling it once; and one call preserves the
store's no-two-rows-share-a-natural-key invariant, so no duplicate row
arises for any natural key. -/
theorem C1_batch_insert_idempotent (existing : List String) (table : String)
    (r0 : Rec) (rest : List Rec) (unique_keys : List String) (st : Store)
    (hnd : (recKeys r0).Nodup)
    (hunif : ∀ r ∈ (r0 :: rest), recKeys r = recKeys r0) :
    batch_insert existing table (r0 :: rest) unique_keys
        (batch_insert existing table (r0 :: rest) unique_keys st).2.1 =
      batch_insert existing table (r0 :: rest) unique_keys st ∧
    (distinctKeys (unique_keys.filter (fun k => existing.contains k)) st →
      distinctKeys (unique_keys.filter (fun k => existing.contains k))
        (batch_insert existing table (r0 :: rest) unique_keys st).2.1) := by
  by_cases hv : unique_keys.filter (fun k => existing.contains k) = []
  · have hres := batch_insert_no_valid_keys existing table r0 rest unique_keys st hv
    constructor
    · rw [hres]
      exact batch_insert_no_valid_keys existing table r0 rest unique_keys st hv
    · intro h
      rw [hres]
      exact h
  · by_cases hcn : recKeys (clean_record_for_insertion (filterRecord existing r0)) = []
    · have hres := batch_insert_empty_cols existing table r0 rest unique_keys st hv hcn
      constructor
      · rw [hres]
        exact batch_insert_empty_cols existing table r0 rest unique_keys st hv hcn
      · intro h
        rw [hres]
        exact h
    · have hres := batch_insert_main existing table r0 rest unique_keys st hv hcn
      have hcolsnodup :
          (recKeys (clean_record_for_insertion (filterRecord existing r0))).Nodup := by
        rw [recKeys_clean]
        exact recKeys_filterRecord_nodup existing r0 hnd
      have hB : ∀ r ∈ (((r0 :: rest).map (filterRecord existing)).map
            clean_record_for_insertion).map
            (mkInsertRow (recKeys (clean_record_for_insertion (filterRecord existing r0)))),
          ∃ rec, r =
            mkInsertRow (recKeys (clean_record_for_insertion (filterRecord existing r0)))
              rec := by
        intro r hr
        obtain ⟨rec, _, rfl⟩ := List.mem_map.mp hr
        exact ⟨rec, rfl⟩
      have hidem := applyBatch_idem (unique_keys.filter (fun k => existing.contains k))
        (recKeys (clean_record_for_insertion (filterRecord existing r0))) st
        ((((r0 :: rest).map (filterRecord existing)).map clean_record_for_insertion).map
          (mkInsertRow (recKeys (clean_record_for_insertion (filterRecord existing r0)))))
        hcolsnodup hB
      constructor
      · rw [hres]
        have h2 := batch_insert_main existing table r0 rest unique_keys
          (applyBatch (unique_keys.filter (fun k => existing.contains k))
            (recKeys (clean_record_for_insertion (filterRecord existing r0))) st
            ((((r0 :: rest).map (filterRecord existing)).map clean_record_for_insertion).map
              (mkInsertRow
                (recKeys (clean_record_for_insertion (filterRecord existing r0))))))
          hv hcn
        rw [hidem] at h2
        exact h2
      · intro h
        rw [hres]
        exact distinctKeys_applyBatch (unique_keys.filter (fun k => existing.contains k))
          (recKeys (clean_record_for_insertion (filterRecord existing r0))) _ st h

/-- C1 witness: a concrete two-record batch sharing one natural key, loaded
into an empty store twice, ends in the same state as loading it once. -/
theorem C1_batch_insert_idempotent_witness :
    (recKeys [("disaster_number", Value.int 1), ("pw_number", Value.str "K"),
      ("project_amount", Value.int 10)]).Nodup ∧
    (∀ r ∈ ([[("disaster_number", Value.int 1), ("pw_number", Value.str "K"),
         ("project_amount", Value.int 10)],
        [("disaster_number", Value.int 1), ("pw_number", Value.str "K"),
         ("project_amount", Value.int 20)]] : List Rec),
      recKeys r = recKeys [("disaster_number", Value.int 1), ("pw_number", Value.str "K"),
        ("project_amount", Value.int 10)]) ∧
    (batch_insert ["disaster_number", "pw_number", "project_amount"]
        "public_assistance_projects"
        ([("disaster_number", Value.int 1), ("pw_number", Value.str "K"),
           ("project_amount", Value.int 10)] ::
          [[("disaster_number", Value.int 1), ("pw_number", Value.str "K"),
            ("project_amount", Value.int 20)]])
        ["disaster_number", "pw_number"]
        (batch_insert ["disaster_number", "pw_number", "project_amount"]
          "public_assistance_projects"
          ([("disaster_number", Value.int 1), ("pw_number", Value.str "K"),
             ("project_amount", Value.int 10)] ::
            [[("disaster_number", Value.int 1), ("pw_number", Value.str "K"),
              ("project_amount", Value.int 20)]])
          ["disaster_number", "pw_number"] []).2.1 =
      batch_insert ["disaster_number", "pw_number", "project_amount"]
        "public_assistance_projects"
        ([("disaster_number", Value.int 1), ("pw_number", Value.str "K"),
           ("project_amount", Value.int 10)] ::
          [[("disaster_number", Value.int 1), ("pw_number", Value.str "K"),
            ("project_amount", Value.int 20)]])
        ["disaster_number", "pw_number"] []) :=
  ⟨by decide, by decide,
    (C1_batch_insert_idempotent ["disaster_number", "pw_number", "project_amount"]
      "public_assistance_projects"
      [("disaster_number", Value.int 1), ("pw_number", Value.str "K"),
        ("project_amount", Value.int 10)]
      [[("disaster_number", Value.int 1), ("pw_number", Value.str "K"),
        ("project_amount", Value.int 20)]]
      ["disaster_number", "pw_number"] [] (by decide) (by decide)).1⟩

end Etl

namespace Etl

/-! ## C9 — the record fingerprint -/

theorem sortKeys_perm (r : Rec) : (sortKeys r).Perm r :=
  List.perm_insertionSort keyLe r

theorem sortKeys_sorted (r : Rec) : List.Sorted keyLe (sortKeys r) :=
  List.sorted_insertionSort keyLe r

theorem sorted_strict_of_nodup_keys (l : Rec) (hs : List.Sorted keyLe l)
    (hnd : (recKeys l).Nodup) : List.Sorted keyLtEq l := by
  have hpair : l.Pairwise (fun p q : String × Value => p.1 ≠ q.1) :=
    List.pairwise_map.mp hnd
  have hand := List.pairwise_and_iff.mpr ⟨hs, hpair⟩
  exact hand.imp fun hab => Or.inl (lt_of_le_of_ne hab.1 hab.2)

theorem sortKeys_eq_of_perm (r₁ r₂ : Rec) (hp : r₁.Perm r₂)
    (hnd : (recKeys r₁).Nodup) : sortKeys r₁ = sortKeys r₂ := by
  have hnd₂ : (recKeys r₂).Nodup := (hp.map Prod.fst).nodup_iff.mp hnd
  have hperm : (sortKeys r₁).Perm (sortKeys r₂) :=
    (sortKeys_perm r₁).trans (hp.trans (sortKeys_perm r₂).symm)
  exact @List.eq_of_perm_of_sorted _ keyLtEq _ _ _ hperm
    (sorted_strict_of_nodup_keys _ (sortKeys_sorted r₁)
      (((sortKeys_perm r₁).map Prod.fst).nodup_iff.mpr hnd))
    (sorted_strict_of_nodup_keys _ (sortKeys_sorted r₂)
      (((sortKeys_perm r₂).map Prod.fst).nodup_iff.mpr hnd₂))

/-- C9 amended: `generate_hash` is deterministic — two records holding the
same field-value pairs in any key ordering (with duplicate-free keys, as
Python dicts guarantee) produce the identical digest string.  Changing the
value of one field, however, does not always change the digest: distinct
values can share the canonical `default=str` serialization — a timestamp
and its own string rendering serialize identically — and records that
serialize identically hash identically (see the counterexample). -/
theorem C9_generate_hash_deterministic (r₁ r₂ : Rec) (hp : r₁.Perm r₂)
    (hnd : (recKeys r₁).Nodup) : generate_hash r₁ = generate_hash r₂ := by
  unfold generate_hash serializeRecord
  rw [sortKeys_eq_of_perm r₁ r₂ hp hnd]

/-- C9 witness: the same two fields in either order hash identically. -/
theorem C9_generate_hash_deterministic_witness :
    ([("pw_number", Value.str "Z"), ("disaster_number", Value.int 9)] : Rec).Perm
      [("disaster_number", Value.int 9), ("pw_number", Value.str "Z")] ∧
    (recKeys [("pw_number", Value.str "Z"), ("disaster_number", Value.int 9)]).Nodup ∧
    generate_hash [("pw_number", Value.str "Z"), ("disaster_number", Value.int 9)] =
      generate_hash [("disaster_number", Value.int 9), ("pw_number", Value.str "Z")] :=
  ⟨List.Perm.swap _ _ _, by decide,
    C9_generate_hash_deterministic _ _ (List.Perm.swap _ _ _) (by decide)⟩

/-- C9 counterexample: the claim that changing the value of one field always
produces a different digest is false at a concrete input.  A date value and
its own string rendering are distinct field values, but `default=str`
serializes the date as exactly that string, so the two records have the same
canonical serialization and therefore the same MD5 digest. -/
theorem C9_counterexample :
    Value.date 5 ≠ Value.str "5" ∧
    generate_hash [("declaration_date", Value.date 5)] =
      generate_hash [("declaration_date", Value.str "5")] :=
  ⟨by decide, rfl⟩

end Etl
